import Mathlib

/-!
Verification of the frequency-analysis core of `rainfall-frequency-analysis`.

The JavaScript sources embedded here:
  * `src/Frequency/RainUtils.js`        — class `RainUtils` (sort, statistics, Look, Extreme)
  * `src/Frequency/FrequencyAnalysis.js`— class `FrequencyAnalysis` (freq and its helpers)
  * `src/Frequency/ChiSquareTest.js`    — class `ChiSquareTest`
  * the KS-test module (class `KSTest`)

JavaScript numbers are modelled by `JSNum`: either NaN, +Infinity, -Infinity,
or a (mathematical) real.  Rounding of IEEE doubles is not modelled — every
finite number is an exact real — but the special values NaN/±Infinity and
their propagation through arithmetic and comparisons follow the JS semantics.
Samples are lists of reals (the interface requires all sample elements to be
valid finite numbers).  JS arrays are modelled as lists; where a method could
mutate an array, the embedding threads the array value explicitly
(state-passing) and returns the caller's array contents after the call.
-/

/-- A JavaScript number: NaN, +Infinity, -Infinity, or a finite value
(modelled as an exact real). -/
inductive JSNum : Type
  | nan : JSNum
  | posInf : JSNum
  | negInf : JSNum
  | real : ℝ → JSNum

namespace JSNum

/-- JS unary minus: `-NaN = NaN`, `-Infinity` flips sign, reals negate. -/
def neg : JSNum → JSNum
  | nan => nan
  | posInf => negInf
  | negInf => posInf
  | real x => real (-x)

/-- JS addition: NaN absorbs; `Infinity + (-Infinity) = NaN`; an infinity
plus a finite value keeps the infinity. -/
def add : JSNum → JSNum → JSNum
  | nan, _ => nan
  | _, nan => nan
  | posInf, negInf => nan
  | negInf, posInf => nan
  | posInf, _ => posInf
  | _, posInf => posInf
  | negInf, _ => negInf
  | _, negInf => negInf
  | real x, real y => real (x + y)

/-- JS subtraction: `a - b` behaves exactly as `a + (-b)`. -/
def sub (a b : JSNum) : JSNum := add a (neg b)

/-- JS multiplication: NaN absorbs; `0 * ±Infinity = NaN`; otherwise signs
multiply and an infinite factor makes the product infinite. -/
noncomputable def mul : JSNum → JSNum → JSNum
  | nan, _ => nan
  | _, nan => nan
  | posInf, posInf => posInf
  | posInf, negInf => negInf
  | negInf, posInf => negInf
  | negInf, negInf => posInf
  | posInf, real y => if 0 < y then posInf else if y < 0 then negInf else nan
  | negInf, real y => if 0 < y then negInf else if y < 0 then posInf else nan
  | real x, posInf => if 0 < x then posInf else if x < 0 then negInf else nan
  | real x, negInf => if 0 < x then negInf else if x < 0 then posInf else nan
  | real x, real y => real (x * y)

/-- JS division: NaN absorbs; `±Infinity / ±Infinity = NaN`; a finite value
divided by an infinity is `0`; division of a nonzero value by `0` gives a
signed infinity and `0 / 0 = NaN`. -/
noncomputable def div : JSNum → JSNum → JSNum
  | nan, _ => nan
  | _, nan => nan
  | posInf, posInf => nan
  | posInf, negInf => nan
  | negInf, posInf => nan
  | negInf, negInf => nan
  | posInf, real y => if 0 ≤ y then posInf else negInf
  | negInf, real y => if 0 ≤ y then negInf else posInf
  | real _, posInf => real 0
  | real _, negInf => real 0
  | real x, real y =>
      if y = 0 then (if x = 0 then nan else if 0 < x then posInf else negInf)
      else real (x / y)

/-- JS strict `<` comparison: any comparison involving NaN is false;
`-Infinity` is below every non-NaN value other than itself, `+Infinity`
above. -/
def lt : JSNum → JSNum → Prop
  | real x, real y => x < y
  | real _, posInf => True
  | negInf, real _ => True
  | negInf, posInf => True
  | _, _ => False

noncomputable instance : ∀ a b : JSNum, Decidable (lt a b) := by
  intro a b
  cases a <;> cases b <;> simp only [lt] <;> infer_instance

/-- JS strict `<` as a boolean, as used in branch conditions. -/
noncomputable def ltB (a b : JSNum) : Bool := decide (lt a b)

/-- JS `isNaN` check. -/
def isNaN : JSNum → Bool
  | nan => true
  | _ => false

/-- JS `Math.log` on a finite argument: positive gives the real logarithm,
zero gives `-Infinity`, negative gives NaN. -/
noncomputable def logR (x : ℝ) : JSNum :=
  if 0 < x then real (Real.log x) else if x = 0 then negInf else nan

/-- JS `Math.log` on an arbitrary number: `log(+Infinity) = +Infinity`,
`log(-Infinity) = NaN`, `log(NaN) = NaN`. -/
noncomputable def log : JSNum → JSNum
  | nan => nan
  | posInf => posInf
  | negInf => nan
  | real x => logR x

/-- JS `Math.pow(10, x)`: `10^NaN = NaN`, `10^{+Infinity} = +Infinity`,
`10^{-Infinity} = 0`, and a real exponent gives the real power. -/
noncomputable def pow10 : JSNum → JSNum
  | nan => nan
  | posInf => posInf
  | negInf => real 0
  | real x => real ((10 : ℝ) ^ x)

end JSNum

namespace RainUtils

/-- RainUtils.sort (RainUtils.js 17-20): ascending sort of a numeric array.
The source calls `arr.slice()` to make a copy and sorts the copy with the
comparator `(a, b) => a - b` (ascending, stable); the embedding returns the
sorted copy. -/
noncomputable def sort (arr : List ℝ) : List ℝ :=
  arr.mergeSort (fun a b => decide (a ≤ b))

/-- MomentSummary record returned by `RainUtils.statistics`. -/
structure Stats where
  Xmin : ℝ
  Xmax : ℝ
  M : ℝ
  SD : ℝ
  Cv : ℝ
  Cs : ℝ

/-- RainUtils.statistics (RainUtils.js 27-66): sample mean, (n-1)-denominator
standard deviation, adjusted skewness, coefficient of variation, and min/max
taken from the ascending sort of the input.  For `n = 0` every field is `0`.
`reduce`/`for..of` accumulations are folds; `Math.sqrt`/`Math.pow` arguments
are provably nonnegative here, where JS agrees with `Real.sqrt`/`rpow`. -/
noncomputable def statistics (X : List ℝ) : Stats :=
  let n := X.length
  if n = 0 then ⟨0, 0, 0, 0, 0, 0⟩ else
  let sum := X.foldl (fun acc val => acc + val) (0 : ℝ)
  let mean := sum / n
  let sumSqDiff := X.foldl (fun acc val => acc + (val - mean) ^ 2) (0 : ℝ)
  let sumCubeDiff := X.foldl (fun acc val => acc + (val - mean) ^ 3) (0 : ℝ)
  let variance := if 1 < n then sumSqDiff / ((n : ℝ) - 1) else 0
  let stdDev := Real.sqrt variance
  let M2 := sumSqDiff / n
  let M3 := sumCubeDiff / n
  let skewness :=
    if 2 < n ∧ 0 < M2
    then (Real.sqrt ((n : ℝ) * ((n : ℝ) - 1)) / ((n : ℝ) - 2)) * (M3 / M2 ^ (1.5 : ℝ))
    else 0
  let sortedX := sort X
  ⟨sortedX.getD 0 0, sortedX.getD (n - 1) 0, mean, stdDev,
    if mean ≠ 0 then stdDev / mean else 0, skewness⟩

/-- Rational-approximation branch of `RainUtils.Look` (RainUtils.js 83-93),
used for `0.5 < p < 1`: `t = sqrt(-2 ln(1-p))` and the Abramowitz–Stegun
26.2.23 correction with the fixed coefficients. -/
noncomputable def LookApprox (p : ℝ) : ℝ :=
  let t := Real.sqrt (-2.0 * Real.log (1.0 - p))
  let c0 : ℝ := 2.515517
  let c1 : ℝ := 0.802853
  let c2 : ℝ := 0.010328
  let d1 : ℝ := 1.432788
  let d2 : ℝ := 0.189269
  let d3 : ℝ := 0.001308
  let numerator := c0 + c1 * t + c2 * t * t
  let denominator := 1 + d1 * t + d2 * t * t + d3 * t * t * t
  t - numerator / denominator

/-- RainUtils.Look (RainUtils.js 74-94): inverse standard-normal CDF
approximation.  NaN for `p ≤ 0` or `p ≥ 1`; `0` at `p = 0.5`; for `p < 0.5`
the source recurses as `-Look(1-p)` (the recursive call lands in the
approximation branch since `1-p > 0.5`). -/
noncomputable def Look (p : ℝ) : JSNum :=
  if p ≤ 0 ∨ 1 ≤ p then .nan
  else if p = 0.5 then .real 0
  else if h : p < 0.5 then (Look (1 - p)).neg
  else .real (LookApprox p)
termination_by ((if p < 0.5 then 1 else 0) : ℕ)
decreasing_by
  simp only [if_pos h, if_neg (show ¬ (1 - p < 0.5) by linarith)]
  norm_num

/-- RainUtils.Extreme (RainUtils.js 101-105): Gumbel reduced variate
`-ln(-ln(1 - px))`, with the JS semantics of `Math.log` at `0`, negative
arguments and infinities. -/
noncomputable def Extreme (px : ℝ) : JSNum :=
  let Fx := 1 - px
  ((JSNum.logR Fx).neg.log).neg

end RainUtils

/-- Distribution codes 1..5 shared by FrequencyAnalysis, KSTest and
ChiSquareTest (`this.DistributionType` in each class). -/
inductive DistributionType : Type
  | Normal
  | LogNormal
  | PearsonType3
  | LogPearsonType3
  | ExtremeValueType1
deriving DecidableEq

/-- Base-10 log transform applied elementwise when a distribution requires
it: `val > 1e-6 ? Math.log10(val) : 0` (the same inline map appears in
FrequencyAnalysis.js 90, ChiSquareTest.js 158 and the KS module 69). -/
noncomputable def log10Clamp (val : ℝ) : ℝ :=
  if val > 1e-6 then Real.logb 10 val else 0

/-- Whether the distribution implies the base-10 log transform
(LogNormal or LogPearsonType3), as tested in all three components. -/
def requiresLog (distType : DistributionType) : Bool :=
  distType = DistributionType.LogNormal ∨ distType = DistributionType.LogPearsonType3

/-- Result record of the frequency analysis: frequency factor and estimate. -/
structure FreqResult where
  Kt : JSNum
  Qest : JSNum

namespace FrequencyAnalysis

/-- FrequencyAnalysis._calculateNormal (FrequencyAnalysis.js 130-134):
`Kt = z`, `Qest = mean + Kt*std`. -/
noncomputable def _calculateNormal (mean std : ℝ) (z : JSNum) : FreqResult :=
  let Kt := z
  let Qest := (JSNum.real mean).add (Kt.mul (.real std))
  ⟨Kt, Qest⟩

/-- FrequencyAnalysis._calculateLogNormal (FrequencyAnalysis.js 137-141):
normal computation in log space, then `Qest = 10^logQest`. -/
noncomputable def _calculateLogNormal (mean std : ℝ) (z : JSNum) : FreqResult :=
  let r := _calculateNormal mean std z
  ⟨r.Kt, r.Qest.pow10⟩

/-- FrequencyAnalysis._calculatePearsonType3 (FrequencyAnalysis.js 144-152):
Wilson–Hilferty frequency factor
`Kt = z + (z²-1)k + (z(z²-6))k²/3 - (z²-1)k²k + z k²k² + k²k²k/3` with
`k = cs/6`, then `Qest = mean + std*Kt + tau`.  `cs` is the (finite) sample
skewness, so `k` and `k2` are finite and computed in ℝ; subterms involving
`z` use the JS number semantics. -/
noncomputable def _calculatePearsonType3 (mean std cs : ℝ) (z : JSNum) (tau : ℝ) : FreqResult :=
  let k : ℝ := cs / 6.0
  let z2 := z.mul z
  let k2 : ℝ := k * k
  let Kt :=
    ((((z.add ((z2.sub (.real 1.0)).mul (.real k))).add
        (((z.mul (z2.sub (.real 6.0))).mul (.real k2)).div (.real 3.0))).sub
        (((z2.sub (.real 1.0)).mul (.real k2)).mul (.real k))).add
        ((z.mul (.real k2)).mul (.real k2))).add
        (.real (k2 * k2 * k / 3.0))
  let Qest := ((JSNum.real mean).add ((JSNum.real std).mul Kt)).add (.real tau)
  ⟨Kt, Qest⟩

/-- FrequencyAnalysis._calculateLogPearsonType3 (FrequencyAnalysis.js
155-159): Pearson III in log space, then `Qest = 10^logQest`. -/
noncomputable def _calculateLogPearsonType3 (mean std cs : ℝ) (z : JSNum) (tau : ℝ) :
    FreqResult :=
  let r := _calculatePearsonType3 mean std cs z tau
  ⟨r.Kt, r.Qest.pow10⟩

/-- FrequencyAnalysis._calculateExtremeValueType1 (FrequencyAnalysis.js
162-168): `alpha = 0.7797 std`, `mode = mean - 0.5772 alpha`,
`Kt = Extreme(px)`, `Qest = mode + alpha*Kt`. -/
noncomputable def _calculateExtremeValueType1 (mean std px : ℝ) : FreqResult :=
  let alpha := 0.7797 * std
  let mode := mean - 0.5772 * alpha
  let Kt := RainUtils.Extreme px
  let Qest := (JSNum.real mode).add ((JSNum.real alpha).mul Kt)
  ⟨Kt, Qest⟩

/-- FrequencyAnalysis.freq (FrequencyAnalysis.js 85-127): log-transform the
sample when required (otherwise `y.slice()`, a copy with the same
contents), compute moment statistics, set `tau = 0`, `px = 1/T`,
`z = Look(1-px)`, and dispatch on the distribution.  The `default: throw`
branch of the source is unreachable here because `DistributionType` has
exactly the five supported codes. -/
noncomputable def freq (distType : DistributionType) (y : List ℝ) (T : ℝ) : FreqResult :=
  let x := if requiresLog distType then y.map log10Clamp else y
  let stats := RainUtils.statistics x
  let mean := stats.M
  let std := stats.SD
  let cs := stats.Cs
  let tau : ℝ := 0
  let px := 1.0 / T
  let z := RainUtils.Look (1 - px)
  match distType with
  | .Normal => _calculateNormal mean std z
  | .LogNormal => _calculateLogNormal mean std z
  | .PearsonType3 => _calculatePearsonType3 mean std cs z tau
  | .LogPearsonType3 => _calculateLogPearsonType3 mean std cs z tau
  | .ExtremeValueType1 => _calculateExtremeValueType1 mean std px

end FrequencyAnalysis

namespace KSTest

/-- Critical KS coefficients for confidence levels 85/90/95/97.5/99%
(`this.KSalpha`, KS module line 28). -/
noncomputable def KSalpha : List ℝ := [0.775, 0.819, 0.895, 0.995, 1.035]

/-- KSTest constructor (KS module 16-35): validates the confidence-level
index against `[0, KSalpha.length)` and either throws or fixes
`alpha = KSalpha[index]` for the instance. -/
noncomputable def make (confidenceLevelIndex : ℤ) : Except String ℝ :=
  if confidenceLevelIndex < 0 ∨ (KSalpha.length : ℤ) ≤ confidenceLevelIndex then
    .error "Invalid confidenceLevelIndex."
  else
    .ok (KSalpha.getD confidenceLevelIndex.toNat 0)

/-- KSTest.sortDescending (KS module 42-46): `[...data]` shallow copy, then
in-place `sort((a, b) => b - a)` on the copy (descending, stable); returns
the sorted copy. -/
noncomputable def sortDescending (data : List ℝ) : List ℝ :=
  data.mergeSort (fun a b => decide (b ≤ a))

/-- KSTest._plottingPosition (KS module 189-200): plotting-position
probability `(rank - b) / (n + 1 - 2b)` with the bias constant selected by
the method code (`b = 0` for any unlisted method, as in the source where
`b` is initialised to 0 and the switch has no default). -/
noncomputable def _plottingPosition (method rank n : ℕ) : ℝ :=
  let b : ℝ :=
    match method with
    | 1 => 0.5
    | 2 => 0.3
    | 3 => 0.0
    | 4 => 3.0 / 8.0
    | 5 => 1.0 / 3.0
    | 6 => 0.44
    | _ => 0
  ((rank : ℝ) - b) / ((n : ℝ) + 1.0 - 2.0 * b)

/-- KSTest._getPearson3Kt (KS module 176-182): Wilson–Hilferty frequency
factor with an explicit NaN guard on `z`.  `skew` is the (finite) sample
skewness, so `k` and `k2` are finite and computed in ℝ. -/
noncomputable def _getPearson3Kt (z : JSNum) (skew : ℝ) : JSNum :=
  if z.isNaN then .nan else
  let k : ℝ := skew / 6.0
  let z2 := z.mul z
  let k2 : ℝ := k * k
  ((((z.add ((z2.sub (.real 1)).mul (.real k))).add
      ((((JSNum.real (1 / 3)).mul z).mul (z2.sub (.real 6))).mul (.real k2))).sub
      (((z2.sub (.real 1)).mul (.real k2)).mul (.real k))).add
      ((z.mul (.real k2)).mul (.real k2))).add
      (.real (1 / 3 * k2 * k2 * k))

/-- Sorted (descending) copy of the sample made at the start of
`KSTest.runTest` (KS module line 60). -/
noncomputable def sortedOf (data : List ℝ) : List ℝ := sortDescending data

/-- The data series the statistics and bounds are computed on: the sorted
sample, log-transformed when the distribution requires it (KS module
66-70). -/
noncomputable def transformedOf (d : DistributionType) (data : List ℝ) : List ℝ :=
  if requiresLog d then (sortedOf data).map log10Clamp else sortedOf data

/-- Moment statistics of the (possibly log-transformed) series (KS module
line 73). -/
noncomputable def statsOf (d : DistributionType) (data : List ℝ) : RainUtils.Stats :=
  RainUtils.statistics (transformedOf d data)

/-- KS critical-band coefficient `Ca = alpha/(sqrt N - 0.01 + 0.85/sqrt N)`
(KS module line 63). -/
noncomputable def CaOf (alpha : ℝ) (N : ℕ) : ℝ :=
  alpha / (Real.sqrt N - 0.01 + 0.85 / Real.sqrt N)

/-- Values computed for one rank of the `runTest` loop. -/
structure KSRank where
  px : ℝ
  zEst : JSNum
  zLow : JSNum
  zHigh : JSNum

/-- Body of the `runTest` loop for rank `i` (KS module 87-153): Weibull
plotting position, confidence-band probability endpoints, the
per-distribution estimate and bounds (a bound stays NaN when its
frequency factor is NaN), and the base-10 back-transform for the log
distributions. -/
noncomputable def boundsAt (alpha : ℝ) (d : DistributionType) (data : List ℝ) (i : ℕ) :
    KSRank :=
  let N := data.length
  let Ca := CaOf alpha N
  let stats := statsOf d data
  let mean := stats.M
  let std := stats.SD
  let skew := stats.Cs
  let px := _plottingPosition 3 i N
  let probLower := ((i : ℝ) - 1.0) / N + Ca
  let probUpper := (i : ℝ) / N - Ca
  let (zEst, zLow, zHigh) : JSNum × JSNum × JSNum :=
    match d with
    | .Normal | .LogNormal =>
        let ktEst := RainUtils.Look (1 - px)
        let ktLow := RainUtils.Look (1 - probLower)
        let ktHigh := RainUtils.Look (1 - probUpper)
        ((JSNum.real mean).add ((JSNum.real std).mul ktEst),
         if ktLow.isNaN then .nan else (JSNum.real mean).add ((JSNum.real std).mul ktLow),
         if ktHigh.isNaN then .nan else (JSNum.real mean).add ((JSNum.real std).mul ktHigh))
    | .PearsonType3 | .LogPearsonType3 =>
        let ktEst := _getPearson3Kt (RainUtils.Look (1 - px)) skew
        let ktLow := _getPearson3Kt (RainUtils.Look (1 - probLower)) skew
        let ktHigh := _getPearson3Kt (RainUtils.Look (1 - probUpper)) skew
        ((JSNum.real mean).add ((JSNum.real std).mul ktEst),
         if ktLow.isNaN then .nan else (JSNum.real mean).add ((JSNum.real std).mul ktLow),
         if ktHigh.isNaN then .nan else (JSNum.real mean).add ((JSNum.real std).mul ktHigh))
    | .ExtremeValueType1 =>
        let alphaG := 0.7797 * std
        let mode := mean - 0.5772 * alphaG
        let ktEst := RainUtils.Extreme px
        let ktLow := RainUtils.Extreme probLower
        let ktHigh := RainUtils.Extreme probUpper
        ((JSNum.real mode).add ((JSNum.real alphaG).mul ktEst),
         if ktLow.isNaN then .nan else (JSNum.real mode).add ((JSNum.real alphaG).mul ktLow),
         if ktHigh.isNaN then .nan else (JSNum.real mode).add ((JSNum.real alphaG).mul ktHigh))
  if requiresLog d then
    ⟨px, zEst.pow10,
      (if zLow.isNaN then zLow else zLow.pow10),
      (if zHigh.isNaN then zHigh else zHigh.pow10)⟩
  else
    ⟨px, zEst, zLow, zHigh⟩

/-- Condition of the first violation check at rank `i`
(`!isNaN(zLow) && observedValue < zLow`, KS module line 158). -/
noncomputable def condLowAt (alpha : ℝ) (d : DistributionType) (data : List ℝ) (i : ℕ) :
    Bool :=
  let observedValue := (sortedOf data).getD (i - 1) 0
  let zLow := (boundsAt alpha d data i).zLow
  !zLow.isNaN && JSNum.ltB (.real observedValue) zLow

/-- Condition of the second violation check at rank `i`
(`!isNaN(zHigh) && observedValue > zHigh`, KS module line 162). -/
noncomputable def condHighAt (alpha : ℝ) (d : DistributionType) (data : List ℝ) (i : ℕ) :
    Bool :=
  let observedValue := (sortedOf data).getD (i - 1) 0
  let zHigh := (boundsAt alpha d data i).zHigh
  !zHigh.isNaN && JSNum.ltB zHigh (.real observedValue)

/-- Mark pushed for rank `i` (KS module 156-166): starts `'G'`, the first
check overwrites it with `'-'`, the second with `'+'` (the second wins when
both fire). -/
noncomputable def markAt (alpha : ℝ) (d : DistributionType) (data : List ℝ) (i : ℕ) : Char :=
  if condHighAt alpha d data i then '+'
  else if condLowAt alpha d data i then '-'
  else 'G'

/-- Effect of one loop iteration on the running `fitted` flag: each firing
check sets it to `false` (KS module 158-165). -/
def fittedStep (condLow condHigh : Bool) (acc : Bool) : Bool :=
  let acc1 := if condLow then false else acc
  if condHigh then false else acc1

/-- Final value of `results.fitted`: the flag starts `true` and the loop
ranks `1..N` update it through `fittedStep`. -/
noncomputable def fittedOf (alpha : ℝ) (d : DistributionType) (data : List ℝ) : Bool :=
  (List.range' 1 data.length).foldl
    (fun acc i => fittedStep (condLowAt alpha d data i) (condHighAt alpha d data i) acc) true

/-- Result record of `KSTest.runTest` (KS module 76-85 and the pushes in the
loop).  All per-rank sequences are index-aligned with the descending sort. -/
structure KSResult where
  obs : List ℝ
  est : List JSNum
  lowerBound : List JSNum
  upperBound : List JSNum
  mark : List Char
  prob : List ℝ
  Ca : ℝ
  fitted : Bool

/-- The `runTest` result for nonempty data: the loop over ranks `1..N`
pushes one entry per rank into each sequence and folds the `fitted` flag. -/
noncomputable def runTestCore (alpha : ℝ) (d : DistributionType) (data : List ℝ) : KSResult :=
  let N := data.length
  { obs := sortedOf data
    est := (List.range' 1 N).map fun i => (boundsAt alpha d data i).zEst
    lowerBound := (List.range' 1 N).map fun i => (boundsAt alpha d data i).zLow
    upperBound := (List.range' 1 N).map fun i => (boundsAt alpha d data i).zHigh
    mark := (List.range' 1 N).map fun i => markAt alpha d data i
    prob := (List.range' 1 N).map fun i => (boundsAt alpha d data i).px
    Ca := CaOf alpha N
    fitted := fittedOf alpha d data }

/-- KSTest.runTest (KS module 54-170): throws on an empty sample, otherwise
returns the assembled result record. -/
noncomputable def runTest (alpha : ℝ) (d : DistributionType) (data : List ℝ) :
    Except String KSResult :=
  if data.length = 0 then .error "Input data array cannot be empty."
  else .ok (runTestCore alpha d data)

end KSTest

namespace ChiSquareTest

/-- Confidence-level labels (`this.ConfidenceLevelString`,
ChiSquareTest.js 35). -/
def ConfidenceLevelString : List String := ["85%", "90%", "95%", "97.5%", "99%"]

/-- Chi-square critical-value table: rows are degrees of freedom 1..20,
columns the confidence-level index 0..4 (ChiSquareTest.js 38-49). -/
noncomputable def Chi2Table : List (List ℝ) := [
  [1.320, 2.706, 3.841, 5.020, 6.630], [2.775, 4.605, 5.991, 7.380, 9.210],
  [4.111, 6.251, 7.815, 9.350, 11.300], [5.390, 7.779, 9.488, 11.100, 13.300],
  [6.630, 9.236, 11.070, 12.800, 15.100], [7.840, 10.645, 12.592, 14.400, 16.800],
  [9.040, 12.017, 14.067, 16.000, 18.500], [10.202, 13.362, 15.507, 17.500, 20.100],
  [11.400, 14.684, 16.919, 19.000, 21.700], [12.500, 15.987, 18.307, 20.500, 23.200],
  [13.700, 17.275, 19.675, 21.900, 24.700], [14.800, 18.549, 21.026, 23.300, 26.200],
  [16.000, 19.812, 22.362, 24.700, 27.700], [17.100, 21.064, 23.685, 26.100, 29.100],
  [18.200, 22.307, 24.996, 27.500, 30.600], [19.400, 23.542, 26.296, 28.800, 32.000],
  [20.500, 24.769, 27.587, 30.200, 33.400], [21.600, 25.989, 28.869, 31.500, 34.800],
  [22.700, 27.204, 30.144, 32.900, 36.200], [23.800, 28.412, 31.410, 34.200, 37.600]]

/-- ChiSquareTest._getPearson3Kt (ChiSquareTest.js 225-230): Wilson–Hilferty
frequency factor, no NaN guard.  `skew` is the (finite) sample skewness, so
`k` and `k2` are finite and computed in ℝ. -/
noncomputable def _getPearson3Kt (z : JSNum) (skew : ℝ) : JSNum :=
  let k : ℝ := skew / 6.0
  let z2 := z.mul z
  let k2 : ℝ := k * k
  ((((z.add ((z2.sub (.real 1)).mul (.real k))).add
      ((((JSNum.real (1 / 3)).mul z).mul (z2.sub (.real 6))).mul (.real k2))).sub
      (((z2.sub (.real 1)).mul (.real k2)).mul (.real k))).add
      ((z.mul (.real k2)).mul (.real k2))).add
      (.real (1 / 3 * k2 * k2 * k))

/-- Result record of the Chi-Square test (`_createChi2Results`,
ChiSquareTest.js 80-93).  The 1-based JS arrays of length
`intervalCount + 1` are modelled as functions on ℕ holding their final
values (`0` outside the indices the code writes). -/
structure Chi2Results where
  lo : ℕ → JSNum
  hi : ℕ → JSNum
  o : ℕ → ℕ
  e : ℕ → ℝ
  ObsChi2Value : JSNum
  EstChi2Value : JSNum
  fitted : Bool
  Conclusion : String
  ConfidenceLevel : String

/-- Interior bin edge produced by the switch in `_divideIntoBins`
(ChiSquareTest.js 170-195) at cumulative probability `i / intervalCount`. -/
noncomputable def binEdge (d : DistributionType) (mean std skew : ℝ) (intervalCount i : ℕ) :
    JSNum :=
  let cumulativeProb := (i : ℝ) / intervalCount
  let exceedanceProb := 1 - cumulativeProb
  match d with
  | .Normal | .LogNormal =>
      let z := RainUtils.Look cumulativeProb
      (JSNum.real mean).add ((JSNum.real std).mul z)
  | .PearsonType3 | .LogPearsonType3 =>
      let z := RainUtils.Look cumulativeProb
      let kt := _getPearson3Kt z skew
      (JSNum.real mean).add ((JSNum.real std).mul kt)
  | .ExtremeValueType1 =>
      let alpha := 0.7797 * std
      let mode := mean - 0.5772 * alpha
      let kt := RainUtils.Extreme exceedanceProb
      (JSNum.real mode).add ((JSNum.real alpha).mul kt)

/-- Final contents of the `hi` array after `_divideIntoBins`
(ChiSquareTest.js 166-200): interior edges `hi[i]` for `1 ≤ i < k` come
from the distribution quantiles, `hi[k] = max + 2` is the padded top edge,
all other slots keep their initial `0`. -/
noncomputable def hiArr (d : DistributionType) (mean std skew high : ℝ) (k : ℕ) (i : ℕ) :
    JSNum :=
  if i = k then .real (high + 2.0)
  else if 1 ≤ i ∧ i < k then binEdge d mean std skew k i
  else .real 0

/-- Final contents of the `lo` array after `_divideIntoBins`:
`lo[1] = min - 2` (padded bottom edge, ChiSquareTest.js 164) and
`lo[i] = hi[i-1]` for `2 ≤ i ≤ k` (line 197). -/
noncomputable def loArr (d : DistributionType) (mean std skew low high : ℝ) (k : ℕ) (i : ℕ) :
    JSNum :=
  if i = 1 then .real (low - 2.0)
  else if 2 ≤ i ∧ i ≤ k then hiArr d mean std skew high k (i - 1)
  else .real 0

/-- ChiSquareTest._countFrequencies (ChiSquareTest.js 210-219): for each bin
`1..k`, count the data values with `lo[i] < value && value < hi[i]`
(strict open interval; a value equal to an edge is not counted). -/
noncomputable def countAt (data : List ℝ) (lo hi : ℕ → JSNum) (k : ℕ) (i : ℕ) : ℕ :=
  if 1 ≤ i ∧ i ≤ k then
    data.countP fun value => JSNum.ltB (lo i) (.real value) && JSNum.ltB (.real value) (hi i)
  else 0

/-- The data series the Chi-Square bins are built over: the (sorted) input,
log-transformed when the distribution requires it (ChiSquareTest.js
155-159). -/
noncomputable def transformedOf (data : List ℝ) (d : DistributionType) : List ℝ :=
  if requiresLog d then data.map log10Clamp else data

/-- ChiSquareTest._divideIntoBins (ChiSquareTest.js 153-204): log-transform
when required, compute moment statistics of the transformed data, build the
padded equal-probability bin edges, and count observed frequencies.  The
fields `e`, the statistics and the strings keep the `_createChi2Results`
initial values at this stage. -/
noncomputable def _divideIntoBins (data : List ℝ) (intervalCount : ℕ) (d : DistributionType) :
    Chi2Results :=
  let transformedData := transformedOf data d
  let stats := RainUtils.statistics transformedData
  let lo := loArr d stats.M stats.SD stats.Cs stats.Xmin stats.Xmax intervalCount
  let hi := hiArr d stats.M stats.SD stats.Cs stats.Xmax intervalCount
  { lo := lo
    hi := hi
    o := countAt transformedData lo hi intervalCount
    e := fun _ => 0
    ObsChi2Value := .real 0
    EstChi2Value := .real 0
    fitted := false
    Conclusion := ""
    ConfidenceLevel := "" }

/-- Number of distribution parameters the degrees-of-freedom switch charges
for each distribution (ChiSquareTest.js 113-130): `df = k - 3` for
Normal/LogNormal/ExtremeValueI and `df = k - 4` for the Pearson III pair. -/
def dfOf (d : DistributionType) (intervalCount : ℕ) : ℤ :=
  match d with
  | .ExtremeValueType1 => (intervalCount : ℤ) - 3
  | .LogPearsonType3 => (intervalCount : ℤ) - 4
  | .Normal => (intervalCount : ℤ) - 3
  | .LogNormal => (intervalCount : ℤ) - 3
  | .PearsonType3 => (intervalCount : ℤ) - 4

/-- ChiSquareTest._calculateChiSquare (ChiSquareTest.js 99-147): fills the
uniform expected counts `e[i] = n/k`, accumulates the chi-square statistic
`Σ (o[i]-e[i])²/e[i]` with JS arithmetic, computes the clamped degrees of
freedom, looks up the critical value (`+Infinity` beyond the 20-row table)
and sets `fitted = (observed < critical)`.  The `Conclusion` string of this
path only formats numbers for display and is not modelled (kept `""`). -/
noncomputable def _calculateChiSquare (data : List ℝ) (intervalCount : ℕ)
    (confidenceIndex : ℕ) (d : DistributionType) : Chi2Results :=
  let results := _divideIntoBins data intervalCount d
  let n := data.length
  let e : ℕ → ℝ := fun i =>
    if 1 ≤ i ∧ i ≤ intervalCount then (n : ℝ) / (intervalCount : ℝ) else 0
  let chi2Stat : JSNum :=
    (List.range' 1 intervalCount).foldl
      (fun acc i =>
        acc.add ((JSNum.real (((results.o i : ℝ) - e i) ^ 2)).div (.real (e i))))
      (.real 0)
  let df : ℤ := max 1 (dfOf d intervalCount)
  let criticalValue : JSNum :=
    if 0 < df ∧ df ≤ (Chi2Table.length : ℤ) then
      .real ((Chi2Table.getD (df - 1).toNat []).getD confidenceIndex 0)
    else .posInf
  { results with
    e := e
    ConfidenceLevel := ConfidenceLevelString.getD confidenceIndex ""
    EstChi2Value := criticalValue
    ObsChi2Value := chi2Stat
    fitted := JSNum.ltB chi2Stat criticalValue
    Conclusion := "" }

/-- The `{ConfidenceLevel, Conclusion, fitted}` object returned when the
confidence index is invalid (ChiSquareTest.js 60-66). -/
structure Chi2Invalid where
  ConfidenceLevel : String
  Conclusion : String
  fitted : Bool

/-- A `chi2Test` call yields either the soft-failure object or a full
result record (the JS function returns objects of two different shapes). -/
inductive Chi2Outcome : Type
  | invalid : Chi2Invalid → Chi2Outcome
  | results : Chi2Results → Chi2Outcome

/-- JS `Math.round`: round half away from zero upward, `⌊x + 0.5⌋`. -/
noncomputable def jsRound (x : ℝ) : ℤ := ⌊x + 0.5⌋

/-- Sturges' rule bin count `1 + round(3.3 log10 n)` (ChiSquareTest.js 71);
meaningful for `n ≥ 1`. -/
noncomputable def sturges (n : ℕ) : ℤ := 1 + jsRound (3.3 * Real.logb 10 n)

/-- ChiSquareTest.chi2Test (ChiSquareTest.js 59-74): confidence-index guard
with the soft-failure object, ascending sort, Sturges' bin count, and the
core calculation. -/
noncomputable def chi2Test (distType : DistributionType) (data : List ℝ)
    (confidenceIndex : ℤ) : Chi2Outcome :=
  if confidenceIndex < 0 ∨ (ConfidenceLevelString.length : ℤ) ≤ confidenceIndex then
    .invalid
      { ConfidenceLevel := toString confidenceIndex
        Conclusion := "Confidence index is invalid! Must be between [0, " ++
          toString (ConfidenceLevelString.length - 1) ++ "]"
        fitted := false }
  else
    let sortedData := RainUtils.sort data
    let intervalCount := (sturges data.length).toNat
    .results (_calculateChiSquare sortedData intervalCount confidenceIndex.toNat distType)

end ChiSquareTest

/-- State-passing form of `RainUtils.sort` (RainUtils.js 17-20).  JS
`Array.prototype.sort` mutates its receiver; the source guards the caller
by calling it on the `slice()` copy.  The first component is the caller's
array contents after the call, the second the returned sorted copy. -/
noncomputable def RainUtils.sortSt (arr : List ℝ) : List ℝ × List ℝ :=
  let copy := arr
  (arr, copy.mergeSort (fun a b => decide (a ≤ b)))

/-- State-passing form of `KSTest.sortDescending` (KS module 42-46): the
in-place descending sort runs on the `[...data]` copy; the caller's array
is returned unchanged alongside the sorted copy. -/
noncomputable def KSTest.sortDescendingSt (data : List ℝ) : List ℝ × List ℝ :=
  let copy := data
  (data, copy.mergeSort (fun a b => decide (b ≤ a)))

/-- State-passing form of `RainUtils.statistics`: the body only reads the
input (`reduce`, `for..of`) and sorts through `RainUtils.sort`, which
copies; the caller's array after the call is the unchanged input. -/
noncomputable def RainUtils.statisticsSt (X : List ℝ) : List ℝ × RainUtils.Stats :=
  (X, RainUtils.statistics X)

/-- State-passing form of `FrequencyAnalysis.freq`: the sample is only read
(`map` and `slice` allocate fresh arrays). -/
noncomputable def FrequencyAnalysis.freqSt (distType : DistributionType) (y : List ℝ)
    (T : ℝ) : List ℝ × FreqResult :=
  (y, FrequencyAnalysis.freq distType y T)

/-- State-passing form of `KSTest.runTest`: sorting happens on the
`sortDescending` copy and everything else only reads. -/
noncomputable def KSTest.runTestSt (alpha : ℝ) (d : DistributionType) (data : List ℝ) :
    List ℝ × Except String KSTest.KSResult :=
  (data, KSTest.runTest alpha d data)

/-- State-passing form of `ChiSquareTest.chi2Test`: sorting happens on the
`RainUtils.sort` copy and everything else only reads. -/
noncomputable def ChiSquareTest.chi2TestSt (distType : DistributionType) (data : List ℝ)
    (confidenceIndex : ℤ) : List ℝ × ChiSquareTest.Chi2Outcome :=
  (data, ChiSquareTest.chi2Test distType data confidenceIndex)

namespace JSNum

@[simp] theorem neg_nan : neg nan = nan := rfl
@[simp] theorem neg_posInf : neg posInf = negInf := rfl
@[simp] theorem neg_negInf : neg negInf = posInf := rfl
@[simp] theorem neg_real (x : ℝ) : neg (real x) = real (-x) := rfl

@[simp] theorem add_nan (a : JSNum) : add a nan = nan := by cases a <;> rfl
@[simp] theorem nan_add (a : JSNum) : add nan a = nan := by cases a <;> rfl
@[simp] theorem add_real_real (x y : ℝ) : add (real x) (real y) = real (x + y) := rfl

@[simp] theorem mul_nan (a : JSNum) : mul a nan = nan := by cases a <;> rfl
@[simp] theorem nan_mul (a : JSNum) : mul nan a = nan := by cases a <;> rfl
@[simp] theorem mul_real_real (x y : ℝ) : mul (real x) (real y) = real (x * y) := rfl

@[simp] theorem sub_real_real (x y : ℝ) : sub (real x) (real y) = real (x - y) := by
  simp only [sub, neg_real, add_real_real, sub_eq_add_neg]
@[simp] theorem sub_nan (a : JSNum) : sub a nan = nan := by cases a <;> rfl
@[simp] theorem nan_sub (a : JSNum) : sub nan a = nan := by cases a <;> rfl

@[simp] theorem div_real_nan (a : JSNum) : div a nan = nan := by cases a <;> rfl
@[simp] theorem nan_div (a : JSNum) : div nan a = nan := by cases a <;> rfl

theorem div_real_real_of_ne (x y : ℝ) (hy : y ≠ 0) :
    div (real x) (real y) = real (x / y) := by
  simp [div, hy]

@[simp] theorem lt_real_real (x y : ℝ) : lt (real x) (real y) ↔ x < y := Iff.rfl
@[simp] theorem lt_real_posInf (x : ℝ) : lt (real x) posInf := trivial
@[simp] theorem not_lt_nan (a : JSNum) : ¬ lt a nan := by cases a <;> simp [lt]
@[simp] theorem not_nan_lt (a : JSNum) : ¬ lt nan a := by cases a <;> simp [lt]

theorem ltB_eq_true_iff (a b : JSNum) : ltB a b = true ↔ lt a b := by
  simp [ltB]

@[simp] theorem ltB_real_real (x y : ℝ) : ltB (real x) (real y) = decide (x < y) := by
  simp [ltB, lt]

@[simp] theorem isNaN_nan : isNaN nan = true := rfl
@[simp] theorem isNaN_real (x : ℝ) : isNaN (real x) = false := rfl
@[simp] theorem isNaN_posInf : isNaN posInf = false := rfl
@[simp] theorem isNaN_negInf : isNaN negInf = false := rfl

theorem neg_neg_eq (a : JSNum) : a.neg.neg = a := by
  cases a <;> simp [neg]

end JSNum

namespace RainUtils

theorem Look_of_nonpos {p : ℝ} (h : p ≤ 0) : Look p = .nan := by
  rw [Look]; simp [h]

theorem Look_of_one_le {p : ℝ} (h : 1 ≤ p) : Look p = .nan := by
  rw [Look]; simp [h]

theorem Look_half : Look 0.5 = .real 0 := by
  rw [Look]; norm_num

/-- On the open interval (0,1) the inverse-CDF approximation always produces
a finite number (never NaN or an infinity). -/
theorem Look_isReal {p : ℝ} (h0 : 0 < p) (h1 : p < 1) : ∃ x, Look p = .real x := by
  rw [Look]
  rcases lt_trichotomy p 0.5 with h | h | h
  · rw [Look]
    have : ¬ (1 - p ≤ 0 ∨ 1 ≤ 1 - p) := by push_neg; constructor <;> linarith
    simp only [if_neg (show ¬ (p ≤ 0 ∨ 1 ≤ p) by push_neg; exact ⟨h0, h1⟩),
      if_neg (show ¬ p = 0.5 by linarith), dif_pos h, if_neg this,
      if_neg (show ¬ (1 - p = 0.5) by intro hc; apply absurd h; norm_num at hc ⊢; linarith),
      dif_neg (show ¬ (1 - p < 0.5) by norm_num at h ⊢; linarith)]
    exact ⟨-(LookApprox (1 - p)), rfl⟩
  · simp only [if_neg (show ¬ (p ≤ 0 ∨ 1 ≤ p) by push_neg; exact ⟨h0, h1⟩), if_pos h]
    exact ⟨0, rfl⟩
  · simp only [if_neg (show ¬ (p ≤ 0 ∨ 1 ≤ p) by push_neg; exact ⟨h0, h1⟩),
      if_neg (show ¬ p = 0.5 by linarith), dif_neg (show ¬ (p < 0.5) by linarith)]
    exact ⟨LookApprox p, rfl⟩

/-- On the open interval (0,1) the Gumbel reduced variate is finite. -/
theorem Extreme_isReal {px : ℝ} (h0 : 0 < px) (h1 : px < 1) : ∃ x, Extreme px = .real x := by
  have hFx0 : (0 : ℝ) < 1 - px := by linarith
  have hFx1 : 1 - px < 1 := by linarith
  have hlog : Real.log (1 - px) < 0 := Real.log_neg hFx0 hFx1
  refine ⟨-Real.log (-Real.log (1 - px)), ?_⟩
  simp only [Extreme, JSNum.logR, if_pos hFx0, JSNum.neg_real, JSNum.log, JSNum.logR,
    if_pos (show 0 < -Real.log (1 - px) by linarith)]

end RainUtils

namespace JSNum

@[simp] theorem posInf_add_real (y : ℝ) : add posInf (real y) = posInf := rfl
@[simp] theorem real_add_posInf (x : ℝ) : add (real x) posInf = posInf := rfl
@[simp] theorem negInf_add_real (y : ℝ) : add negInf (real y) = negInf := rfl
@[simp] theorem real_add_negInf (x : ℝ) : add (real x) negInf = negInf := rfl
@[simp] theorem posInf_add_posInf : add posInf posInf = posInf := rfl
@[simp] theorem negInf_add_negInf : add negInf negInf = negInf := rfl
@[simp] theorem posInf_add_negInf : add posInf negInf = nan := rfl
@[simp] theorem negInf_add_posInf : add negInf posInf = nan := rfl

@[simp] theorem posInf_mul_posInf : mul posInf posInf = posInf := rfl
@[simp] theorem posInf_mul_negInf : mul posInf negInf = negInf := rfl
@[simp] theorem negInf_mul_posInf : mul negInf posInf = negInf := rfl
@[simp] theorem negInf_mul_negInf : mul negInf negInf = posInf := rfl

theorem posInf_mul_real_pos {y : ℝ} (hy : 0 < y) : mul posInf (real y) = posInf := by
  simp [mul, hy]

theorem posInf_mul_real_neg {y : ℝ} (hy : y < 0) : mul posInf (real y) = negInf := by
  simp [mul, hy, hy.not_lt]

@[simp] theorem posInf_mul_real_zero : mul posInf (real 0) = nan := by
  simp [mul]

theorem negInf_mul_real_pos {y : ℝ} (hy : 0 < y) : mul negInf (real y) = negInf := by
  simp [mul, hy]

theorem negInf_mul_real_neg {y : ℝ} (hy : y < 0) : mul negInf (real y) = posInf := by
  simp [mul, hy, hy.not_lt]

@[simp] theorem negInf_mul_real_zero : mul negInf (real 0) = nan := by
  simp [mul]

theorem real_mul_posInf_pos {x : ℝ} (hx : 0 < x) : mul (real x) posInf = posInf := by
  simp [mul, hx]

theorem real_mul_posInf_neg {x : ℝ} (hx : x < 0) : mul (real x) posInf = negInf := by
  simp [mul, hx, hx.not_lt]

theorem real_mul_negInf_pos {x : ℝ} (hx : 0 < x) : mul (real x) negInf = negInf := by
  simp [mul, hx]

theorem real_mul_negInf_neg {x : ℝ} (hx : x < 0) : mul (real x) negInf = posInf := by
  simp [mul, hx, hx.not_lt]

@[simp] theorem posInf_sub_real (y : ℝ) : sub posInf (real y) = posInf := rfl
@[simp] theorem negInf_sub_real (y : ℝ) : sub negInf (real y) = negInf := rfl

theorem posInf_div_real_pos {y : ℝ} (hy : 0 < y) : div posInf (real y) = posInf := by
  simp [div, hy.le]

theorem negInf_div_real_pos {y : ℝ} (hy : 0 < y) : div negInf (real y) = negInf := by
  simp [div, hy.le]

@[simp] theorem pow10_nan : pow10 nan = nan := rfl

end JSNum

/-- C4: `standardNormalInverse` (`RainUtils.Look`) returns NaN for every
`p ≤ 0` and every `p ≥ 1`, returns `0` at `p = 0.5`, and satisfies the
antisymmetry `Look p = -Look (1-p)` for every `p` in the open interval
(0, 1). -/
theorem look_nan_zero_antisymmetry :
    (∀ p : ℝ, p ≤ 0 → RainUtils.Look p = .nan) ∧
    (∀ p : ℝ, 1 ≤ p → RainUtils.Look p = .nan) ∧
    RainUtils.Look 0.5 = .real 0 ∧
    (∀ p : ℝ, 0 < p → p < 1 → RainUtils.Look p = (RainUtils.Look (1 - p)).neg) := by
  refine ⟨fun p hp => RainUtils.Look_of_nonpos hp,
    fun p hp => RainUtils.Look_of_one_le hp, RainUtils.Look_half, ?_⟩
  intro p h0 h1
  have hg : ¬ (p ≤ 0 ∨ 1 ≤ p) := by push_neg; exact ⟨h0, h1⟩
  rcases lt_trichotomy p 0.5 with h | h | h
  · rw [RainUtils.Look, if_neg hg, if_neg (by intro hc; rw [hc] at h; exact lt_irrefl _ h),
      dif_pos h]
  · rw [h, show (1 : ℝ) - 0.5 = 0.5 by norm_num, RainUtils.Look_half]
    simp [JSNum.neg]
  · have hg1 : ¬ (1 - p ≤ 0 ∨ 1 ≤ 1 - p) := by push_neg; constructor <;> linarith
    conv_rhs => rw [RainUtils.Look]
    rw [if_neg hg1, if_neg (show ¬ (1 - p = 0.5) by intro hc; norm_num at hc h; linarith),
      dif_pos (show 1 - p < 0.5 by norm_num at h ⊢; linarith),
      show (1 : ℝ) - (1 - p) = p by ring, JSNum.neg_neg_eq]

/-- Witness for C4 at `p = -1`, `p = 2`, `p = 0.5` and `p = 0.25`. -/
theorem look_nan_zero_antisymmetry_witness :
    RainUtils.Look (-1) = .nan ∧ RainUtils.Look 2 = .nan ∧
    RainUtils.Look 0.5 = .real 0 ∧
    RainUtils.Look 0.25 = (RainUtils.Look (1 - 0.25)).neg :=
  ⟨look_nan_zero_antisymmetry.1 (-1) (by norm_num),
   look_nan_zero_antisymmetry.2.1 2 (by norm_num),
   look_nan_zero_antisymmetry.2.2.1,
   look_nan_zero_antisymmetry.2.2.2 0.25 (by norm_num) (by norm_num)⟩

/-- C5: for every sample and every return period `T`, the Normal-
distribution frequency estimate returns `Kt = Look(1 - 1/T)` and
`Qest = mean + Kt*std`, where `mean` and `std` come from
`RainUtils.statistics` of the untransformed sample (no log step). -/
theorem freq_normal_formula (y : List ℝ) (T : ℝ) :
    FrequencyAnalysis.freq .Normal y T =
      { Kt := RainUtils.Look (1 - 1.0 / T)
        Qest := (JSNum.real (RainUtils.statistics y).M).add
          ((RainUtils.Look (1 - 1.0 / T)).mul (.real (RainUtils.statistics y).SD)) } := by
  simp [FrequencyAnalysis.freq, FrequencyAnalysis._calculateNormal, requiresLog]

theorem look_zero_eq_nan : RainUtils.Look 0 = .nan :=
  RainUtils.Look_of_nonpos le_rfl

theorem extreme_one_eq_negInf : RainUtils.Extreme 1 = .negInf := by
  norm_num [RainUtils.Extreme, JSNum.logR, JSNum.log, JSNum.neg]

/-- C10: at the boundary return period `T = 1` (exceedance probability 1)
the frequency estimate returns normally: `Kt` and `Qest` are NaN for
Normal, LogNormal, PearsonIII and LogPearsonIII (because
`standardNormalInverse(0)` is NaN), and `Kt = -Infinity` for
ExtremeValueI. -/
theorem freq_return_period_one (y : List ℝ) :
    FrequencyAnalysis.freq .Normal y 1 = { Kt := .nan, Qest := .nan } ∧
    FrequencyAnalysis.freq .LogNormal y 1 = { Kt := .nan, Qest := .nan } ∧
    FrequencyAnalysis.freq .PearsonType3 y 1 = { Kt := .nan, Qest := .nan } ∧
    FrequencyAnalysis.freq .LogPearsonType3 y 1 = { Kt := .nan, Qest := .nan } ∧
    (FrequencyAnalysis.freq .ExtremeValueType1 y 1).Kt = .negInf := by
  refine ⟨?_, ?_, ?_, ?_, ?_⟩ <;>
    norm_num [FrequencyAnalysis.freq, FrequencyAnalysis._calculateNormal,
      FrequencyAnalysis._calculateLogNormal, FrequencyAnalysis._calculatePearsonType3,
      FrequencyAnalysis._calculateLogPearsonType3,
      FrequencyAnalysis._calculateExtremeValueType1, requiresLog,
      look_zero_eq_nan, extreme_one_eq_negInf, JSNum.pow10]

/-- C7: in every Chi-Square result computed with `intervalCount = k` bins
over a sample of size `n`, the expected count of every bin `1 ≤ i ≤ k` is
`n / k`. -/
theorem chi2_expected_uniform (data : List ℝ) (k ci : ℕ) (d : DistributionType)
    (i : ℕ) (h1 : 1 ≤ i) (h2 : i ≤ k) :
    (ChiSquareTest._calculateChiSquare data k ci d).e i = (data.length : ℝ) / (k : ℝ) := by
  simp [ChiSquareTest._calculateChiSquare, h1, h2]

/-- Witness for C7: sample `[5, 5]` with 2 bins, bin 1. -/
theorem chi2_expected_uniform_witness :
    (ChiSquareTest._calculateChiSquare [5, 5] 2 2 .Normal).e 1 =
      (([5, 5] : List ℝ).length : ℝ) / (2 : ℝ) :=
  chi2_expected_uniform [5, 5] 2 2 .Normal 1 (by decide) (by decide)

/-- C2: in the Chi-Square test the degrees of freedom equal
`intervalCount - 1` minus the number of estimated parameters (2 for
Normal, LogNormal and ExtremeValueI; 3 for PearsonIII and LogPearsonIII),
clamped to a minimum of 1; the critical value is `table[df-1][ci]` when
`df` is within the 20-row table and `+Infinity` when `df` exceeds it; and
`fitted` is true iff the observed statistic is strictly below the critical
value. -/
theorem chi2_df_critical_fitted (data : List ℝ) (k ci : ℕ) (d : DistributionType) :
    max 1 (ChiSquareTest.dfOf d k) =
      max 1 ((k : ℤ) - 1 -
        (if d = .PearsonType3 ∨ d = .LogPearsonType3 then 3 else 2)) ∧
    (ChiSquareTest._calculateChiSquare data k ci d).EstChi2Value =
      (if max 1 (ChiSquareTest.dfOf d k) ≤ 20 then
        JSNum.real
          ((ChiSquareTest.Chi2Table.getD (max 1 (ChiSquareTest.dfOf d k) - 1).toNat []).getD
            ci 0)
      else .posInf) ∧
    ((ChiSquareTest._calculateChiSquare data k ci d).fitted = true ↔
      JSNum.lt (ChiSquareTest._calculateChiSquare data k ci d).ObsChi2Value
        (ChiSquareTest._calculateChiSquare data k ci d).EstChi2Value) := by
  have hdf : (0 : ℤ) < max 1 (ChiSquareTest.dfOf d k) := lt_of_lt_of_le one_pos (le_max_left _ _)
  have hlen : (ChiSquareTest.Chi2Table.length : ℤ) = 20 := by
    simp [ChiSquareTest.Chi2Table]
  refine ⟨?_, ?_, ?_⟩
  · cases d <;> simp [ChiSquareTest.dfOf] <;> ring_nf
  · simp only [ChiSquareTest._calculateChiSquare, hlen]
    by_cases h : max 1 (ChiSquareTest.dfOf d k) ≤ 20
    · rw [if_pos ⟨hdf, h⟩, if_pos h]
    · rw [if_neg (by tauto), if_neg h]
  · simp only [ChiSquareTest._calculateChiSquare]
    exact JSNum.ltB_eq_true_iff _ _

/-- C6: a confidence-level index outside `[0, 4]` makes the KS test throw
at construction, while the Chi-Square test called with an out-of-range
index does not throw and instead returns a result object with
`fitted = false` and a descriptive failure message. -/
theorem invalid_confidence_index_asymmetry (ci : ℤ) (d : DistributionType)
    (data : List ℝ) (h : ci < 0 ∨ 4 < ci) :
    KSTest.make ci = Except.error "Invalid confidenceLevelIndex." ∧
    ChiSquareTest.chi2Test d data ci = ChiSquareTest.Chi2Outcome.invalid
      { ConfidenceLevel := toString ci
        Conclusion := "Confidence index is invalid! Must be between [0, 4]"
        fitted := false } := by
  have h5 : ci < 0 ∨ (5 : ℤ) ≤ ci := by omega
  constructor
  · rw [KSTest.make, if_pos (by simpa [KSTest.KSalpha] using h5)]
  · rw [ChiSquareTest.chi2Test,
      if_pos (by simpa [ChiSquareTest.ConfidenceLevelString] using h5)]
    rfl

/-- Witness for C6 at index 5 (first out-of-range value). -/
theorem invalid_confidence_index_asymmetry_witness :
    KSTest.make 5 = Except.error "Invalid confidenceLevelIndex." ∧
    ChiSquareTest.chi2Test .Normal [1] 5 = ChiSquareTest.Chi2Outcome.invalid
      { ConfidenceLevel := toString (5 : ℤ)
        Conclusion := "Confidence index is invalid! Must be between [0, 4]"
        fitted := false } :=
  invalid_confidence_index_asymmetry 5 .Normal [1] (by decide)

/-- C8: no core operation (moment statistics, frequency estimate, KS
runTest, Chi-Square chi2Test) mutates the caller's sample array.  In the
state-passing embedding each operation returns the caller's array contents
after the call unchanged; the two sort helpers sort a fresh copy, which is
a permutation of the input in the requested order. -/
theorem core_operations_do_not_mutate_sample :
    (∀ arr : List ℝ, (RainUtils.sortSt arr).1 = arr ∧
      ((RainUtils.sortSt arr).2).Perm arr ∧
      List.Sorted (· ≤ ·) (RainUtils.sortSt arr).2) ∧
    (∀ data : List ℝ, (KSTest.sortDescendingSt data).1 = data ∧
      ((KSTest.sortDescendingSt data).2).Perm data ∧
      List.Sorted (· ≥ ·) (KSTest.sortDescendingSt data).2) ∧
    (∀ X : List ℝ, (RainUtils.statisticsSt X).1 = X) ∧
    (∀ (d : DistributionType) (y : List ℝ) (T : ℝ),
      (FrequencyAnalysis.freqSt d y T).1 = y) ∧
    (∀ (alpha : ℝ) (d : DistributionType) (data : List ℝ),
      (KSTest.runTestSt alpha d data).1 = data) ∧
    (∀ (d : DistributionType) (data : List ℝ) (ci : ℤ),
      (ChiSquareTest.chi2TestSt d data ci).1 = data) := by
  refine ⟨fun arr => ⟨rfl, List.mergeSort_perm arr _, List.sorted_mergeSort' arr⟩,
    fun data => ⟨rfl, List.mergeSort_perm data _, ?_⟩,
    fun X => rfl, fun d y T => rfl, fun alpha d data => rfl, fun d data ci => rfl⟩
  have hs := @List.sorted_mergeSort ℝ (fun a b : ℝ => decide (b ≤ a))
    (fun a b c hab hbc => by
      simp only [decide_eq_true_eq] at hab hbc ⊢; exact le_trans hbc hab)
    (fun a b => by simpa using le_total b a) data
  exact hs.imp fun h => by simpa using h

/-- C9: the Wilson–Hilferty Pearson III frequency factor is implemented
three times — `FrequencyAnalysis._calculatePearsonType3`,
`KSTest._getPearson3Kt` and `ChiSquareTest._getPearson3Kt` — and all three
compute the same function of the variate `z` (any JS number, NaN included)
and the finite sample skewness: the KS NaN guard does not change the
value, and every version returns NaN when `z` is NaN. -/
theorem pearson_kt_implemented_identically (z : JSNum) (skew mean std tau : ℝ) :
    (FrequencyAnalysis._calculatePearsonType3 mean std skew z tau).Kt =
      ChiSquareTest._getPearson3Kt z skew ∧
    KSTest._getPearson3Kt z skew = ChiSquareTest._getPearson3Kt z skew ∧
    ChiSquareTest._getPearson3Kt .nan skew = .nan := by
  have hthird : ChiSquareTest._getPearson3Kt .nan skew = .nan := by
    simp [ChiSquareTest._getPearson3Kt]
  have hks : KSTest._getPearson3Kt z skew = ChiSquareTest._getPearson3Kt z skew := by
    cases z with
    | nan => simpa [KSTest._getPearson3Kt] using hthird.symm
    | posInf => simp [KSTest._getPearson3Kt, ChiSquareTest._getPearson3Kt, JSNum.isNaN]
    | negInf => simp [KSTest._getPearson3Kt, ChiSquareTest._getPearson3Kt, JSNum.isNaN]
    | real x => simp [KSTest._getPearson3Kt, ChiSquareTest._getPearson3Kt, JSNum.isNaN]
  refine ⟨?_, hks, hthird⟩
  have h13 : (0 : ℝ) < 1 / 3 := by norm_num
  have h30 : (0 : ℝ) < 3 := by norm_num
  cases z with
  | nan => simpa [FrequencyAnalysis._calculatePearsonType3] using hthird.symm
  | real x =>
    simp only [FrequencyAnalysis._calculatePearsonType3, ChiSquareTest._getPearson3Kt,
      JSNum.mul_real_real, JSNum.sub_real_real, JSNum.add_real_real]
    rw [JSNum.div_real_real_of_ne _ _ (show (3.0 : ℝ) ≠ 0 by norm_num)]
    simp only [JSNum.add_real_real]
    exact congrArg JSNum.real (by ring)
  | posInf =>
    rcases lt_trichotomy (skew / 6 : ℝ) 0 with hk | hk | hk
    · have hk2 : 0 < skew / 6 * (skew / 6 : ℝ) := mul_pos_of_neg_of_neg hk hk
      norm_num [FrequencyAnalysis._calculatePearsonType3, ChiSquareTest._getPearson3Kt,
        JSNum.sub, JSNum.posInf_mul_real_neg hk, JSNum.negInf_mul_real_neg hk,
        JSNum.posInf_mul_real_pos hk2, JSNum.negInf_mul_real_pos hk2,
        JSNum.real_mul_posInf_pos h13, JSNum.real_mul_negInf_pos h13,
        JSNum.posInf_div_real_pos h30, JSNum.negInf_div_real_pos h30]
    · norm_num [FrequencyAnalysis._calculatePearsonType3, ChiSquareTest._getPearson3Kt,
        JSNum.sub, hk, JSNum.real_mul_posInf_pos h13, JSNum.real_mul_negInf_pos h13,
        JSNum.posInf_div_real_pos h30, JSNum.negInf_div_real_pos h30]
    · have hk2 : 0 < skew / 6 * (skew / 6 : ℝ) := mul_pos hk hk
      norm_num [FrequencyAnalysis._calculatePearsonType3, ChiSquareTest._getPearson3Kt,
        JSNum.sub, JSNum.posInf_mul_real_pos hk, JSNum.negInf_mul_real_pos hk,
        JSNum.posInf_mul_real_pos hk2, JSNum.negInf_mul_real_pos hk2,
        JSNum.real_mul_posInf_pos h13, JSNum.real_mul_negInf_pos h13,
        JSNum.posInf_div_real_pos h30, JSNum.negInf_div_real_pos h30]
  | negInf =>
    rcases lt_trichotomy (skew / 6 : ℝ) 0 with hk | hk | hk
    · have hk2 : 0 < skew / 6 * (skew / 6 : ℝ) := mul_pos_of_neg_of_neg hk hk
      norm_num [FrequencyAnalysis._calculatePearsonType3, ChiSquareTest._getPearson3Kt,
        JSNum.sub, JSNum.posInf_mul_real_neg hk, JSNum.negInf_mul_real_neg hk,
        JSNum.posInf_mul_real_pos hk2, JSNum.negInf_mul_real_pos hk2,
        JSNum.real_mul_posInf_pos h13, JSNum.real_mul_negInf_pos h13,
        JSNum.posInf_div_real_pos h30, JSNum.negInf_div_real_pos h30]
    · norm_num [FrequencyAnalysis._calculatePearsonType3, ChiSquareTest._getPearson3Kt,
        JSNum.sub, hk, JSNum.real_mul_posInf_pos h13, JSNum.real_mul_negInf_pos h13,
        JSNum.posInf_div_real_pos h30, JSNum.negInf_div_real_pos h30]
    · have hk2 : 0 < skew / 6 * (skew / 6 : ℝ) := mul_pos hk hk
      norm_num [FrequencyAnalysis._calculatePearsonType3, ChiSquareTest._getPearson3Kt,
        JSNum.sub, JSNum.posInf_mul_real_pos hk, JSNum.negInf_mul_real_pos hk,
        JSNum.posInf_mul_real_pos hk2, JSNum.negInf_mul_real_pos hk2,
        JSNum.real_mul_posInf_pos h13, JSNum.real_mul_negInf_pos h13,
        JSNum.posInf_div_real_pos h30, JSNum.negInf_div_real_pos h30]

theorem fittedStep_false (c1 c2 : Bool) : KSTest.fittedStep c1 c2 false = false := by
  cases c1 <;> cases c2 <;> rfl

theorem fittedStep_true (c1 c2 : Bool) : KSTest.fittedStep c1 c2 true = (!c1 && !c2) := by
  cases c1 <;> cases c2 <;> rfl

theorem foldl_fittedStep_false (cL cH : ℕ → Bool) (l : List ℕ) :
    l.foldl (fun acc i => KSTest.fittedStep (cL i) (cH i) acc) false = false := by
  induction l with
  | nil => rfl
  | cons a l ih => simpa [fittedStep_false] using ih

theorem foldl_fittedStep_true_iff (cL cH : ℕ → Bool) (l : List ℕ) :
    l.foldl (fun acc i => KSTest.fittedStep (cL i) (cH i) acc) true = true ↔
      ∀ i ∈ l, cL i = false ∧ cH i = false := by
  induction l with
  | nil => simp
  | cons a l ih =>
    simp only [List.foldl_cons, fittedStep_true]
    cases hcl : cL a with
    | true =>
      simp only [Bool.not_true, Bool.false_and, foldl_fittedStep_false]
      simp [hcl]
    | false =>
      cases hch : cH a with
      | true =>
        simp only [Bool.not_true, Bool.not_false, Bool.true_and, foldl_fittedStep_false]
        simp [hch]
      | false =>
        simp only [Bool.not_false, Bool.true_and]
        rw [ih]
        simp [hcl, hch]

theorem range'_map_getD {α : Type} (f : ℕ → α) (N j : ℕ) (h : j < N) (d : α) :
    ((List.range' 1 N).map f).getD j d = f (1 + j) := by
  rw [List.getD_eq_getElem?_getD, List.getElem?_map, List.getElem?_range' 1 1 h]
  simp

theorem condLowAt_true_iff (alpha : ℝ) (d : DistributionType) (data : List ℝ) (i : ℕ) :
    KSTest.condLowAt alpha d data i = true ↔
      ((KSTest.boundsAt alpha d data i).zLow.isNaN = false ∧
        JSNum.lt (.real ((KSTest.sortedOf data).getD (i - 1) 0))
          (KSTest.boundsAt alpha d data i).zLow) := by
  simp [KSTest.condLowAt, JSNum.ltB]

theorem condHighAt_true_iff (alpha : ℝ) (d : DistributionType) (data : List ℝ) (i : ℕ) :
    KSTest.condHighAt alpha d data i = true ↔
      ((KSTest.boundsAt alpha d data i).zHigh.isNaN = false ∧
        JSNum.lt (KSTest.boundsAt alpha d data i).zHigh
          (.real ((KSTest.sortedOf data).getD (i - 1) 0))) := by
  simp [KSTest.condHighAt, JSNum.ltB]

/-- C3: in every KS test result, `fitted` is false iff some observation
lies strictly below its non-NaN lower bound (the `'-'` mark) or strictly
above its non-NaN upper bound (the `'+'` mark), with mark `'G'` otherwise;
a NaN bound never causes a violation (the comparisons require the bound to
be non-NaN), and once `fitted` becomes false it is never reset back to
true within the run (the loop step maps a false flag to false on every
remaining rank). -/
theorem ks_fitted_band_invariant (alpha : ℝ) (d : DistributionType) (data : List ℝ)
    (r : KSTest.KSResult) (h : KSTest.runTest alpha d data = Except.ok r) :
    (r.fitted = false ↔ ∃ j < data.length,
      (((r.lowerBound.getD j .nan).isNaN = false ∧
        JSNum.lt (.real (r.obs.getD j 0)) (r.lowerBound.getD j .nan)) ∨
       ((r.upperBound.getD j .nan).isNaN = false ∧
        JSNum.lt (r.upperBound.getD j .nan) (.real (r.obs.getD j 0))))) ∧
    (∀ j < data.length, (r.mark.getD j 'G' = 'G' ↔
      ¬ (((r.lowerBound.getD j .nan).isNaN = false ∧
          JSNum.lt (.real (r.obs.getD j 0)) (r.lowerBound.getD j .nan)) ∨
         ((r.upperBound.getD j .nan).isNaN = false ∧
          JSNum.lt (r.upperBound.getD j .nan) (.real (r.obs.getD j 0)))))) ∧
    (∀ l : List ℕ, l.foldl (fun acc i =>
        KSTest.fittedStep (KSTest.condLowAt alpha d data i) (KSTest.condHighAt alpha d data i)
          acc) false = false) := by
  rw [KSTest.runTest] at h
  by_cases hN : data.length = 0
  · rw [if_pos hN] at h
    exact absurd h (by simp)
  rw [if_neg hN] at h
  have hr : r = KSTest.runTestCore alpha d data := by
    injection h with h'
    exact h'.symm
  subst hr
  have hlb : ∀ j, j < data.length →
      (KSTest.runTestCore alpha d data).lowerBound.getD j .nan =
        (KSTest.boundsAt alpha d data (1 + j)).zLow := by
    intro j hj
    simp only [KSTest.runTestCore]
    exact range'_map_getD _ _ _ hj _
  have hub : ∀ j, j < data.length →
      (KSTest.runTestCore alpha d data).upperBound.getD j .nan =
        (KSTest.boundsAt alpha d data (1 + j)).zHigh := by
    intro j hj
    simp only [KSTest.runTestCore]
    exact range'_map_getD _ _ _ hj _
  have hmk : ∀ j, j < data.length →
      (KSTest.runTestCore alpha d data).mark.getD j 'G' =
        KSTest.markAt alpha d data (1 + j) := by
    intro j hj
    simp only [KSTest.runTestCore]
    exact range'_map_getD _ _ _ hj _
  have hob : (KSTest.runTestCore alpha d data).obs = KSTest.sortedOf data := rfl
  have hviol : ∀ j, j < data.length →
      ((KSTest.condLowAt alpha d data (1 + j) = true ∨
        KSTest.condHighAt alpha d data (1 + j) = true) ↔
       ((((KSTest.runTestCore alpha d data).lowerBound.getD j .nan).isNaN = false ∧
          JSNum.lt (.real ((KSTest.runTestCore alpha d data).obs.getD j 0))
            ((KSTest.runTestCore alpha d data).lowerBound.getD j .nan)) ∨
        (((KSTest.runTestCore alpha d data).upperBound.getD j .nan).isNaN = false ∧
          JSNum.lt ((KSTest.runTestCore alpha d data).upperBound.getD j .nan)
            (.real ((KSTest.runTestCore alpha d data).obs.getD j 0))))) := by
    intro j hj
    rw [condLowAt_true_iff, condHighAt_true_iff, hlb j hj, hub j hj, hob,
      show 1 + j - 1 = j by omega]
  have hmain : KSTest.fittedOf alpha d data = false ↔
      ∃ i ∈ List.range' 1 data.length,
        (KSTest.condLowAt alpha d data i = true ∨ KSTest.condHighAt alpha d data i = true) := by
    unfold KSTest.fittedOf
    rw [Bool.eq_false_iff, Ne,
      foldl_fittedStep_true_iff (fun i => KSTest.condLowAt alpha d data i)
        (fun i => KSTest.condHighAt alpha d data i)]
    simp only [not_forall, not_and_or, Bool.not_eq_false, exists_prop]
  have hidx : ∀ P : ℕ → Prop,
      (∃ i ∈ List.range' 1 data.length, P i) ↔ (∃ j, j < data.length ∧ P (1 + j)) := by
    intro P
    constructor
    · rintro ⟨i, hi, hP⟩
      rw [List.mem_range'_1] at hi
      exact ⟨i - 1, by omega, by rwa [show 1 + (i - 1) = i by omega]⟩
    · rintro ⟨j, hj, hP⟩
      exact ⟨1 + j, List.mem_range'_1.mpr ⟨by omega, by omega⟩, hP⟩
  refine ⟨?_, ?_, fun l => foldl_fittedStep_false _ _ l⟩
  · show KSTest.fittedOf alpha d data = false ↔ _
    rw [hmain, hidx]
    constructor
    · rintro ⟨j, hj, hP⟩
      exact ⟨j, hj, (hviol j hj).mp hP⟩
    · rintro ⟨j, hj, hP⟩
      exact ⟨j, hj, (hviol j hj).mpr hP⟩
  · intro j hj
    rw [hmk j hj, ← hviol j hj, KSTest.markAt]
    cases hch : KSTest.condHighAt alpha d data (1 + j) with
    | true => simp [hch]
    | false =>
      cases hcl : KSTest.condLowAt alpha d data (1 + j) with
      | true => simp [hcl, hch]
      | false => simp [hcl, hch]

/-- Witness for C3: the KS invariant instantiated at the 95% alpha, Normal
distribution and the one-element sample `[5]`. -/
theorem ks_fitted_band_invariant_witness :
    ((KSTest.runTestCore 0.895 .Normal [5]).fitted = false ↔ ∃ j < ([5] : List ℝ).length,
      ((((KSTest.runTestCore 0.895 .Normal [5]).lowerBound.getD j .nan).isNaN = false ∧
        JSNum.lt (.real ((KSTest.runTestCore 0.895 .Normal [5]).obs.getD j 0))
          ((KSTest.runTestCore 0.895 .Normal [5]).lowerBound.getD j .nan)) ∨
       (((KSTest.runTestCore 0.895 .Normal [5]).upperBound.getD j .nan).isNaN = false ∧
        JSNum.lt ((KSTest.runTestCore 0.895 .Normal [5]).upperBound.getD j .nan)
          (.real ((KSTest.runTestCore 0.895 .Normal [5]).obs.getD j 0))))) ∧
    (∀ j < ([5] : List ℝ).length,
      ((KSTest.runTestCore 0.895 .Normal [5]).mark.getD j 'G' = 'G' ↔
      ¬ ((((KSTest.runTestCore 0.895 .Normal [5]).lowerBound.getD j .nan).isNaN = false ∧
          JSNum.lt (.real ((KSTest.runTestCore 0.895 .Normal [5]).obs.getD j 0))
            ((KSTest.runTestCore 0.895 .Normal [5]).lowerBound.getD j .nan)) ∨
         (((KSTest.runTestCore 0.895 .Normal [5]).upperBound.getD j .nan).isNaN = false ∧
          JSNum.lt ((KSTest.runTestCore 0.895 .Normal [5]).upperBound.getD j .nan)
            (.real ((KSTest.runTestCore 0.895 .Normal [5]).obs.getD j 0)))))) ∧
    (∀ l : List ℕ, l.foldl (fun acc i =>
        KSTest.fittedStep (KSTest.condLowAt 0.895 .Normal [5] i)
          (KSTest.condHighAt 0.895 .Normal [5] i) acc) false = false) :=
  ks_fitted_band_invariant 0.895 .Normal [5] (KSTest.runTestCore 0.895 .Normal [5])
    (by simp [KSTest.runTest])

theorem getD_last_mem (l : List ℝ) (h : l ≠ []) : l.getD (l.length - 1) 0 ∈ l := by
  have hlt : l.length - 1 < l.length := by
    cases l with
    | nil => exact absurd rfl h
    | cons a t => simp
  rw [List.getD_eq_getElem _ _ hlt]
  exact List.getElem_mem hlt

theorem sorted_getD_zero_le (l : List ℝ) (hs : List.Sorted (· ≤ ·) l) :
    ∀ v ∈ l, l.getD 0 0 ≤ v := by
  cases l with
  | nil => intro v hv; cases hv
  | cons a t =>
    intro v hv
    rw [List.getD_cons_zero]
    rcases List.mem_cons.mp hv with rfl | hvt
    · exact le_refl v
    · exact (List.pairwise_cons.mp hs).1 v hvt

theorem le_sorted_getD_last (l : List ℝ) (hs : List.Sorted (· ≤ ·) l) :
    ∀ v ∈ l, v ≤ l.getD (l.length - 1) 0 := by
  induction l with
  | nil => intro v hv; cases hv
  | cons a t ih =>
    intro v hv
    cases t with
    | nil =>
      simp only [List.mem_singleton] at hv
      subst hv
      simp
    | cons b t' =>
      rw [show (a :: b :: t').length - 1 = ((b :: t').length - 1) + 1 by simp,
        List.getD_cons_succ]
      have hrest := (List.pairwise_cons.mp hs).1
      have hs' := (List.pairwise_cons.mp hs).2
      rcases List.mem_cons.mp hv with rfl | hvt
      · exact le_trans (hrest _ (getD_last_mem (b :: t') (by simp)))
          (le_refl _)
      · exact ih hs' v hvt

theorem statistics_minmax (X : List ℝ) (v : ℝ) (hv : v ∈ X) :
    (RainUtils.statistics X).Xmin ≤ v ∧ v ≤ (RainUtils.statistics X).Xmax := by
  have hne : X.length ≠ 0 := by
    intro h
    rw [List.length_eq_zero] at h
    subst h
    cases hv
  have hXmin : (RainUtils.statistics X).Xmin = (RainUtils.sort X).getD 0 0 := by
    simp only [RainUtils.statistics, if_neg hne]
  have hXmax : (RainUtils.statistics X).Xmax =
      (RainUtils.sort X).getD (X.length - 1) 0 := by
    simp only [RainUtils.statistics, if_neg hne]
  have hperm := List.mergeSort_perm X (fun a b => decide (a ≤ b))
  have hsort : List.Sorted (· ≤ ·) (RainUtils.sort X) := List.sorted_mergeSort' X
  have hvm : v ∈ RainUtils.sort X := hperm.mem_iff.mpr hv
  constructor
  · rw [hXmin]
    exact sorted_getD_zero_le _ hsort v hvm
  · rw [hXmax, show X.length = (RainUtils.sort X).length from hperm.length_eq.symm]
    exact le_sorted_getD_last _ hsort v hvm

theorem sum_countP_exchange (T : List ℝ) (p : ℕ → ℝ → Bool) (s : Finset ℕ) :
    ∑ i ∈ s, List.countP (p i) T =
      (T.map fun v => ∑ i ∈ s, if p i v then (1 : ℕ) else 0).sum := by
  induction T with
  | nil => simp
  | cons a t ih =>
    simp only [List.countP_cons, List.map_cons, List.sum_cons]
    rw [Finset.sum_add_distrib, ih]
    ring

theorem exactly_one_bin (E : ℕ → ℝ) (v : ℝ) :
    ∀ k, 1 ≤ k → (∀ i, 1 ≤ i → i ≤ k → E (i - 1) < E i) → E 0 < v → v < E k →
      (∀ i, 1 ≤ i → i < k → v ≠ E i) →
      ∑ i ∈ Finset.Icc 1 k, (if E (i - 1) < v ∧ v < E i then (1 : ℕ) else 0) = 1 := by
  intro k
  induction k with
  | zero => intro h; omega
  | succ k ih =>
    intro hk mono hlo hhi hne
    by_cases hk0 : k = 0
    · subst hk0
      rw [show Finset.Icc 1 1 = {1} from Finset.Icc_self 1, Finset.sum_singleton]
      rw [if_pos ⟨by simpa using hlo, hhi⟩]
    · have hk1 : 1 ≤ k := Nat.one_le_iff_ne_zero.mpr hk0
      rw [Finset.sum_Icc_succ_top (by omega)]
      have hvk : v ≠ E k := hne k hk1 (by omega)
      rcases lt_or_gt_of_ne hvk with hlt | hgt
      · have htop : ¬ (E (k + 1 - 1) < v ∧ v < E (k + 1)) := by
          rw [show k + 1 - 1 = k by omega]
          rintro ⟨h1, _⟩
          linarith
        rw [if_neg htop, add_zero]
        exact ih hk1 (fun i h1 h2 => mono i h1 (by omega)) hlo hlt
          (fun i h1 h2 => hne i h1 (by omega))
      · have hEmono : ∀ i, i ≤ k → E i ≤ E k := by
          intro i hi
          have haux : ∀ j, i ≤ j → j ≤ k → E i ≤ E j := by
            intro j hij
            induction j, hij using Nat.le_induction with
            | base => intro _; exact le_refl _
            | succ n hn ih2 =>
              intro hnk
              have h1 : E n < E (n + 1) := by
                have := mono (n + 1) (by omega) (by omega)
                simpa using this
              exact le_trans (ih2 (by omega)) h1.le
          exact haux k hi (le_refl k)
        rw [if_pos ⟨by rw [show k + 1 - 1 = k by omega]; exact hgt, hhi⟩]
        rw [Finset.sum_eq_zero, zero_add]
        intro i hi
        rw [Finset.mem_Icc] at hi
        apply if_neg
        rintro ⟨_, h2⟩
        have := hEmono i hi.2
        linarith

/-- C1 (amended): the Chi-Square per-bin observed counts sum to the sample
size `n` provided the interior bin edges are finite, the bin edges are
strictly increasing (each bin's low edge lies strictly below its high
edge), and no observation of the (transformed) series is exactly equal to
an interior bin edge.  Without the last proviso the strict open-interval
counting of `_countFrequencies` drops observations landing exactly on an
edge, so the sum can be smaller than `n`. -/
theorem chi2_observed_sum_amended (data : List ℝ) (k ci : ℕ) (d : DistributionType)
    (ed : ℕ → ℝ) (hk : 1 ≤ k)
    (hreal : ∀ i, 1 ≤ i → i < k →
      (ChiSquareTest._divideIntoBins data k d).hi i = .real (ed i))
    (hchain : ∀ i, 1 ≤ i → i ≤ k →
      JSNum.lt ((ChiSquareTest._divideIntoBins data k d).lo i)
        ((ChiSquareTest._divideIntoBins data k d).hi i))
    (hne : ∀ v ∈ ChiSquareTest.transformedOf data d, ∀ i, 1 ≤ i → i < k → v ≠ ed i) :
    ∑ i ∈ Finset.Icc 1 k, (ChiSquareTest._calculateChiSquare data k ci d).o i =
      data.length := by
  have ho : ∀ i, (ChiSquareTest._calculateChiSquare data k ci d).o i =
      (ChiSquareTest._divideIntoBins data k d).o i := fun i => rfl
  set T := ChiSquareTest.transformedOf data d with hT
  set st := RainUtils.statistics T with hst
  set lo' := ChiSquareTest.loArr d st.M st.SD st.Cs st.Xmin st.Xmax k with hlo'
  set hi' := ChiSquareTest.hiArr d st.M st.SD st.Cs st.Xmax k with hhi'
  have hdiv_lo : (ChiSquareTest._divideIntoBins data k d).lo = lo' := rfl
  have hdiv_hi : (ChiSquareTest._divideIntoBins data k d).hi = hi' := rfl
  have hdiv_o : (ChiSquareTest._divideIntoBins data k d).o =
      ChiSquareTest.countAt T lo' hi' k := rfl
  have hhiK : hi' k = .real (st.Xmax + 2.0) := by
    simp [hhi', ChiSquareTest.hiArr]
  have hlo1 : lo' 1 = .real (st.Xmin - 2.0) := by
    simp [hlo', ChiSquareTest.loArr]
  have hloHi : ∀ i, 2 ≤ i → i ≤ k → lo' i = hi' (i - 1) := by
    intro i h2 hik
    simp [hlo', ChiSquareTest.loArr, show ¬ i = 1 by omega, h2, hik, hhi']
  set E : ℕ → ℝ := fun i =>
    if i = 0 then st.Xmin - 2.0 else if i = k then st.Xmax + 2.0 else ed i with hE
  have hiE : ∀ i, 1 ≤ i → i ≤ k → hi' i = .real (E i) := by
    intro i h1 hik
    rcases eq_or_lt_of_le hik with rfl | hlt
    · rw [hhiK]
      simp [hE, show ¬ i = 0 by omega]
    · rw [← hdiv_hi, hreal i h1 hlt]
      simp [hE, show ¬ i = 0 by omega, show ¬ i = k by omega]
  have loE : ∀ i, 1 ≤ i → i ≤ k → lo' i = .real (E (i - 1)) := by
    intro i h1 hik
    by_cases hi1 : i = 1
    · subst hi1
      rw [hlo1]
      simp [hE]
    · rw [hloHi i (by omega) hik, hiE (i - 1) (by omega) (by omega)]
  have hmono : ∀ i, 1 ≤ i → i ≤ k → E (i - 1) < E i := by
    intro i h1 hik
    have h := hchain i h1 hik
    rw [hdiv_lo, hdiv_hi, loE i h1 hik, hiE i h1 hik] at h
    exact h
  have hE0 : E 0 = st.Xmin - 2.0 := by simp [hE]
  have hEk : E k = st.Xmax + 2.0 := by simp [hE, show ¬ k = 0 by omega]
  have hEmid : ∀ i, 1 ≤ i → i < k → E i = ed i := by
    intro i h1 h2
    simp [hE, show ¬ i = 0 by omega, show ¬ i = k by omega]
  have hbound : ∀ v ∈ T, E 0 < v ∧ v < E k := by
    intro v hv
    have h := statistics_minmax T v hv
    rw [← hst] at h
    rw [hE0, hEk]
    constructor
    · linarith [h.1]
    · linarith [h.2]
  have hcount : ∀ i, 1 ≤ i → i ≤ k →
      (ChiSquareTest._calculateChiSquare data k ci d).o i =
        List.countP (fun v => decide (E (i - 1) < v) && decide (v < E i)) T := by
    intro i h1 hik
    rw [ho i, hdiv_o]
    simp only [ChiSquareTest.countAt, if_pos (⟨h1, hik⟩ : 1 ≤ i ∧ i ≤ k)]
    apply List.countP_congr
    intro v _
    rw [loE i h1 hik, hiE i h1 hik]
    simp [JSNum.ltB, JSNum.lt]
  calc ∑ i ∈ Finset.Icc 1 k, (ChiSquareTest._calculateChiSquare data k ci d).o i
      = ∑ i ∈ Finset.Icc 1 k,
          List.countP (fun v => decide (E (i - 1) < v) && decide (v < E i)) T := by
        refine Finset.sum_congr rfl fun i hi => ?_
        rw [Finset.mem_Icc] at hi
        exact hcount i hi.1 hi.2
    _ = (T.map fun v => ∑ i ∈ Finset.Icc 1 k,
          if (decide (E (i - 1) < v) && decide (v < E i) : Bool) then (1 : ℕ) else 0).sum :=
        sum_countP_exchange T _ _
    _ = (T.map fun _ => (1 : ℕ)).sum := by
        refine congrArg List.sum (List.map_congr_left fun v hv => ?_)
        have hconv : ∀ i : ℕ,
            (if (decide (E (i - 1) < v) && decide (v < E i) : Bool) then (1 : ℕ) else 0) =
              (if E (i - 1) < v ∧ v < E i then (1 : ℕ) else 0) := by
          intro i
          by_cases hc : E (i - 1) < v ∧ v < E i
          · rw [if_pos hc, if_pos (by simp [hc.1, hc.2])]
          · rw [if_neg hc, if_neg (by simpa using hc)]
        rw [Finset.sum_congr rfl fun i _ => hconv i]
        refine exactly_one_bin E v k hk hmono (hbound v hv).1 (hbound v hv).2 ?_
        intro i h1 h2
        rw [hEmid i h1 h2]
        exact hne v hv i h1 h2
    _ = T.length := by simp
    _ = data.length := by
        rw [hT]
        unfold ChiSquareTest.transformedOf
        by_cases hlog : requiresLog d = true <;> simp [hlog]

theorem stats_five_five : RainUtils.statistics [5, 5] = ⟨5, 5, 5, 0, 0, 0⟩ := by
  have hsorted : ([5, 5] : List ℝ).mergeSort (fun a b => decide (a ≤ b)) = [5, 5] :=
    List.mergeSort_eq_self (by norm_num [List.Sorted])
  norm_num [RainUtils.statistics, RainUtils.sort, hsorted, List.foldl]

theorem look_half_casts : RainUtils.Look (((1 : ℕ) : ℝ) / ((2 : ℕ) : ℝ)) = .real 0 := by
  rw [show ((1 : ℕ) : ℝ) / ((2 : ℕ) : ℝ) = 0.5 by norm_num]
  exact RainUtils.Look_half

theorem binEdge_normal_half (mean std skew : ℝ) :
    ChiSquareTest.binEdge .Normal mean std skew 2 1 = .real mean := by
  simp only [ChiSquareTest.binEdge]
  rw [look_half_casts]
  simp

theorem chi2_counterexample_o :
    (ChiSquareTest._calculateChiSquare [5, 5] 2 2 .Normal).o 1 = 0 ∧
    (ChiSquareTest._calculateChiSquare [5, 5] 2 2 .Normal).o 2 = 0 := by
  have hT : ChiSquareTest.transformedOf [5, 5] .Normal = [5, 5] := by
    simp [ChiSquareTest.transformedOf, requiresLog]
  have hkey : (ChiSquareTest._calculateChiSquare [5, 5] 2 2 .Normal).o =
      ChiSquareTest.countAt [5, 5] (ChiSquareTest.loArr .Normal 5 0 0 5 5 2)
        (ChiSquareTest.hiArr .Normal 5 0 0 5 2) 2 := by
    show (ChiSquareTest._divideIntoBins [5, 5] 2 .Normal).o = _
    simp only [ChiSquareTest._divideIntoBins, hT, stats_five_five]
  have hhi1 : ChiSquareTest.hiArr .Normal 5 0 0 5 2 1 = .real 5 := by
    rw [show ChiSquareTest.hiArr .Normal 5 0 0 5 2 1 =
        ChiSquareTest.binEdge .Normal 5 0 0 2 1 by norm_num [ChiSquareTest.hiArr],
      binEdge_normal_half]
  have hhi2 : ChiSquareTest.hiArr .Normal 5 0 0 5 2 2 = .real 7 := by
    norm_num [ChiSquareTest.hiArr]
  have hlo1 : ChiSquareTest.loArr .Normal 5 0 0 5 5 2 1 = .real 3 := by
    norm_num [ChiSquareTest.loArr]
  have hlo2 : ChiSquareTest.loArr .Normal 5 0 0 5 5 2 2 = .real 5 := by
    rw [show ChiSquareTest.loArr .Normal 5 0 0 5 5 2 2 =
        ChiSquareTest.hiArr .Normal 5 0 0 5 2 1 by norm_num [ChiSquareTest.loArr], hhi1]
  rw [hkey]
  constructor
  · simp only [ChiSquareTest.countAt, if_pos (by norm_num : 1 ≤ 1 ∧ 1 ≤ 2)]
    rw [List.countP_eq_zero]
    intro a ha
    simp only [List.mem_cons, List.not_mem_nil, or_false] at ha
    rcases ha with rfl | rfl <;>
      simp [hlo1, hhi1, JSNum.ltB, JSNum.lt]
  · simp only [ChiSquareTest.countAt, if_pos (by norm_num : 1 ≤ 2 ∧ 2 ≤ 2)]
    rw [List.countP_eq_zero]
    intro a ha
    simp only [List.mem_cons, List.not_mem_nil, or_false] at ha
    rcases ha with rfl | rfl <;>
      simp [hlo2, hhi2, JSNum.ltB, JSNum.lt]

/-- Counterexample to C1 as stated: for the sample `[5, 5]` under the
Normal distribution with `intervalCount = 2` (the value Sturges' rule gives
for `n = 2`), both observations are equal to the interior bin edge (the
mean, 5), the strict open-interval counting excludes them from both bins,
and the observed counts sum to `0`, not to `n = 2`. -/
theorem chi2_observed_sum_counterexample :
    ∑ i ∈ Finset.Icc 1 2, (ChiSquareTest._calculateChiSquare [5, 5] 2 2 .Normal).o i ≠
      ([5, 5] : List ℝ).length := by
  have h := chi2_counterexample_o
  rw [show Finset.Icc 1 2 = {1, 2} by rfl]
  rw [Finset.sum_insert (by norm_num), Finset.sum_singleton, h.1, h.2]
  norm_num

theorem hiArr_two_one (d : DistributionType) (mean std skew high : ℝ) :
    ChiSquareTest.hiArr d mean std skew high 2 1 =
      ChiSquareTest.binEdge d mean std skew 2 1 := by
  norm_num [ChiSquareTest.hiArr]

theorem loArr_first (d : DistributionType) (mean std skew low high : ℝ) (k : ℕ) :
    ChiSquareTest.loArr d mean std skew low high k 1 = .real (low - 2.0) := by
  simp [ChiSquareTest.loArr]

theorem loArr_two_two (d : DistributionType) (mean std skew low high : ℝ) :
    ChiSquareTest.loArr d mean std skew low high 2 2 =
      ChiSquareTest.hiArr d mean std skew high 2 1 := by
  norm_num [ChiSquareTest.loArr]

theorem hiArr_top (d : DistributionType) (mean std skew high : ℝ) (k : ℕ) :
    ChiSquareTest.hiArr d mean std skew high k k = .real (high + 2.0) := by
  simp [ChiSquareTest.hiArr]

theorem stats_one_four_M : (RainUtils.statistics [1, 4]).M = 2.5 := by
  norm_num [RainUtils.statistics, List.foldl]

theorem stats_one_four_Xmin : (RainUtils.statistics [1, 4]).Xmin = 1 := by
  have hsorted : ([1, 4] : List ℝ).mergeSort (fun a b => decide (a ≤ b)) = [1, 4] :=
    List.mergeSort_eq_self (by norm_num [List.Sorted])
  norm_num [RainUtils.statistics, RainUtils.sort, hsorted]

theorem stats_one_four_Xmax : (RainUtils.statistics [1, 4]).Xmax = 4 := by
  have hsorted : ([1, 4] : List ℝ).mergeSort (fun a b => decide (a ≤ b)) = [1, 4] :=
    List.mergeSort_eq_self (by norm_num [List.Sorted])
  norm_num [RainUtils.statistics, RainUtils.sort, hsorted]

theorem chi2_bins_one_four_hi :
    (ChiSquareTest._divideIntoBins [1, 4] 2 .Normal).hi =
      ChiSquareTest.hiArr .Normal (RainUtils.statistics [1, 4]).M
        (RainUtils.statistics [1, 4]).SD (RainUtils.statistics [1, 4]).Cs
        (RainUtils.statistics [1, 4]).Xmax 2 := by
  simp only [ChiSquareTest._divideIntoBins,
    show ChiSquareTest.transformedOf [1, 4] .Normal = [1, 4] by
      simp [ChiSquareTest.transformedOf, requiresLog]]

theorem chi2_bins_one_four_lo :
    (ChiSquareTest._divideIntoBins [1, 4] 2 .Normal).lo =
      ChiSquareTest.loArr .Normal (RainUtils.statistics [1, 4]).M
        (RainUtils.statistics [1, 4]).SD (RainUtils.statistics [1, 4]).Cs
        (RainUtils.statistics [1, 4]).Xmin (RainUtils.statistics [1, 4]).Xmax 2 := by
  simp only [ChiSquareTest._divideIntoBins,
    show ChiSquareTest.transformedOf [1, 4] .Normal = [1, 4] by
      simp [ChiSquareTest.transformedOf, requiresLog]]

/-- Witness for the amended C1 at the sample `[1, 4]` under Normal with
`intervalCount = 2`: the single interior edge is the mean 2.5, no
observation equals it, the edges increase strictly, and the observed
counts do sum to `n = 2`. -/
theorem chi2_observed_sum_amended_witness :
    (∀ i, 1 ≤ i → i < 2 →
      (ChiSquareTest._divideIntoBins [1, 4] 2 .Normal).hi i =
        .real ((fun _ => (2.5 : ℝ)) i)) ∧
    (∀ i, 1 ≤ i → i ≤ 2 →
      JSNum.lt ((ChiSquareTest._divideIntoBins [1, 4] 2 .Normal).lo i)
        ((ChiSquareTest._divideIntoBins [1, 4] 2 .Normal).hi i)) ∧
    (∀ v ∈ ChiSquareTest.transformedOf [1, 4] .Normal,
      ∀ i, 1 ≤ i → i < 2 → v ≠ (fun _ => (2.5 : ℝ)) i) ∧
    ∑ i ∈ Finset.Icc 1 2, (ChiSquareTest._calculateChiSquare [1, 4] 2 2 .Normal).o i =
      ([1, 4] : List ℝ).length := by
  have hhi1 : (ChiSquareTest._divideIntoBins [1, 4] 2 .Normal).hi 1 = .real 2.5 := by
    rw [chi2_bins_one_four_hi, hiArr_two_one, binEdge_normal_half, stats_one_four_M]
  have hhi2 : (ChiSquareTest._divideIntoBins [1, 4] 2 .Normal).hi 2 = .real 6 := by
    rw [chi2_bins_one_four_hi, hiArr_top, stats_one_four_Xmax]
    norm_num
  have hlo1 : (ChiSquareTest._divideIntoBins [1, 4] 2 .Normal).lo 1 = .real (-1) := by
    rw [chi2_bins_one_four_lo, loArr_first, stats_one_four_Xmin]
    norm_num
  have hlo2 : (ChiSquareTest._divideIntoBins [1, 4] 2 .Normal).lo 2 = .real 2.5 := by
    rw [chi2_bins_one_four_lo, loArr_two_two, ← chi2_bins_one_four_hi, hhi1]
  have h1 : ∀ i, 1 ≤ i → i < 2 →
      (ChiSquareTest._divideIntoBins [1, 4] 2 .Normal).hi i =
        .real ((fun _ => (2.5 : ℝ)) i) := by
    intro i hi1 hi2
    have : i = 1 := by omega
    subst this
    exact hhi1
  have h2 : ∀ i, 1 ≤ i → i ≤ 2 →
      JSNum.lt ((ChiSquareTest._divideIntoBins [1, 4] 2 .Normal).lo i)
        ((ChiSquareTest._divideIntoBins [1, 4] 2 .Normal).hi i) := by
    intro i hi1 hi2
    interval_cases i
    · rw [hlo1, hhi1]
      show (-1 : ℝ) < 2.5
      norm_num
    · rw [hlo2, hhi2]
      show (2.5 : ℝ) < 6
      norm_num
  have h3 : ∀ v ∈ ChiSquareTest.transformedOf [1, 4] .Normal,
      ∀ i, 1 ≤ i → i < 2 → v ≠ (fun _ => (2.5 : ℝ)) i := by
    intro v hv i _ _
    rw [show ChiSquareTest.transformedOf [1, 4] .Normal = [1, 4] by
      simp [ChiSquareTest.transformedOf, requiresLog]] at hv
    simp only [List.mem_cons, List.not_mem_nil, or_false] at hv
    rcases hv with rfl | rfl <;> norm_num
  exact ⟨h1, h2, h3,
    chi2_observed_sum_amended [1, 4] 2 2 .Normal (fun _ => 2.5) (by norm_num) h1 h2 h3⟩
